import Mathlib

/-!
Verification of the conversational agent orchestrator core
(orchestration loop, rolling-window memory system, notes scratchpad).

The JavaScript modules `lib/memorySystem.js`, `lib/notesManager.js` and
`lib/agentOrchestrator.js` are shallowly embedded below.  External
collaborators (the language-model wrapper, shell command execution, the
approval callback, the wall clock and JSON parsing) are modelled as
oracle parameters, matching the specification's treatment of them as
opaque functions.  JavaScript string truthiness is modelled by taking
the empty string as the only falsy string value.
-/

/-- JavaScript `a || b` on strings: the empty string is falsy. -/
def jsOr (a b : String) : String := if a = "" then b else a

/-- Replicate a character, building a string (used for concrete inputs). -/
def repChar (c : Char) (n : Nat) : String := String.mk (List.replicate n c)

/-- Does `hay` contain `needle` as a contiguous substring
(JavaScript `hay.includes(needle)`)? -/
def containsSeq (hay needle : List Char) : Bool :=
  needle.isPrefixOf hay ||
    (match hay with
     | [] => false
     | _ :: t => containsSeq t needle)

/-- String-level substring containment. -/
def strContains (hay needle : String) : Bool := containsSeq hay.data needle.data

/-- JavaScript `toLowerCase` (character-wise, ASCII-adequate). -/
def asciiLower (s : String) : String := ⟨s.data.map Char.toLower⟩

/-- Split a character list at every separator character (JavaScript
`split`, which keeps empty segments). -/
def splitChars (p : Char → Bool) : List Char → List (List Char)
  | [] => [[]]
  | c :: t =>
    if p c then [] :: splitChars p t
    else
      match splitChars p t with
      | h :: r => (c :: h) :: r
      | [] => [[c]]

/-- JavaScript `trim`: strip whitespace from both ends. -/
def strTrim (s : String) : String :=
  ⟨((s.data.dropWhile Char.isWhitespace).reverse.dropWhile Char.isWhitespace).reverse⟩

/-- JavaScript `startsWith`. -/
def strStarts (s pre : String) : Bool := pre.data.isPrefixOf s.data

/- ═══════════════ Data model (memorySystem.js) ═══════════════ -/

/-- The user-request payload stored in memory (`{ query, context }`). -/
structure UserRequest where
  query : String
  context : String
deriving Repr, DecidableEq

/-- A structured turn response of the base agent
(`baseAgentExtendedResponseSchema`).  The JS object is flat with
branch-specific fields; absent string fields are modelled as `""`.
The JS field named `continue` is called `cont` here. -/
structure AgentResponse where
  choice : String
  response : String
  questionsForUser : Bool
  questions : List String
  missingContext : List String
  code : String
  language : String
  codeExplanation : String
  terminalCommand : String
  commandReasoning : String
  requiresApproval : Bool
  cont : Bool
  summary : String
deriving Repr, DecidableEq

/-- Output of the summarize agent (`summarizeAgentResponseSchema`). -/
structure SummarizeOut where
  summary : String
  reasoning : String
deriving Repr, DecidableEq

/-- One stored interaction (memorySystem.js `addInteraction`). -/
structure Interaction where
  userRequest : UserRequest
  aiResponse : AgentResponse
  ts : String
  id : Nat
deriving Repr, DecidableEq

/-- Covered range of a summary record. -/
structure SummaryRange where
  startId : Nat
  endId : Nat
  startTs : String
  endTs : String
deriving Repr, DecidableEq

/-- A stored summary record. -/
structure Summary where
  range : SummaryRange
  text : String
  reasoning : String
  ts : String
deriving Repr, DecidableEq

/-- The persisted memory aggregate (`memory.json`). -/
structure Memory where
  interactions : List Interaction
  summaries : List Summary
  count : Nat
deriving Repr, DecidableEq

def MAX_INTERACTIONS : Nat := 21

def MAX_SUMMARIES : Nat := 3

def emptyMemory : Memory := { interactions := [], summaries := [], count := 0 }

/-- Environment of the memory system: the wall clock
(`new Date().toISOString()`, indexed by a tick counter) and the
summarization collaborator (`queryOpenAI` with the summarize schema);
`Except.error` models a thrown collaborator error. -/
structure MemEnv where
  clock : Nat → String
  summarize : String → Except String SummarizeOut

/-- Memory-system state: the persisted memory, the clock tick, and a
ghost counter of summarization-collaborator invocations. -/
structure MemState where
  mem : Memory
  tick : Nat
  nSummarizeCalls : Nat
deriving Repr, DecidableEq

/-- A crude rendering standing in for `JSON.stringify(userRequest)`
(only ever handed to the summarization oracle). -/
def jsonOfRequest (r : UserRequest) : String :=
  "\x7b\"query\":\"" ++ r.query ++ "\",\"context\":\"" ++ r.context ++ "\"\x7d"

/-- A crude rendering standing in for `JSON.stringify(aiResponse)`
(only ever handed to the summarization oracle). -/
def jsonOfResponse (r : AgentResponse) : String :=
  "\x7b\"choice\":\"" ++ r.choice ++ "\",\"response\":\"" ++ r.response ++
    "\",\"code\":\"" ++ r.code ++ "\"\x7d"

/-- One line of the text block handed to the summarize agent
(memorySystem.js lines 92-100). -/
def interactionSummaryLine (i : Interaction) : String :=
  let userQuery := jsOr i.userRequest.query (jsonOfRequest i.userRequest)
  let aiText :=
    jsOr i.aiResponse.response
      (jsOr i.aiResponse.code (jsOr i.aiResponse.summary (jsonOfResponse i.aiResponse)))
  "[" ++ i.ts ++ "] Interaction " ++ toString i.id ++ ":\nUser: " ++ userQuery ++
    "\nAI: " ++ aiText

/-- `toSummarize.map(...).join('\n\n')`. -/
def contextTextOf (l : List Interaction) : String :=
  String.intercalate "\n\n" (l.map interactionSummaryLine)

/-- memorySystem.js `summarizeAndShift`: summarize all interactions but
the oldest, append the summary (evicting the oldest summary beyond
`MAX_SUMMARIES`), then drop the oldest interaction.  A collaborator
failure is caught: the shift still happens. -/
def summarizeAndShift (env : MemEnv) (s : MemState) : MemState :=
  let toSummarize := s.mem.interactions.drop 1
  let contextText := contextTextOf toSummarize
  let s1 : MemState := { s with nSummarizeCalls := s.nSummarizeCalls + 1 }
  let afterTry : Memory × Nat :=
    match env.summarize contextText with
    | .ok out =>
      match toSummarize.head?, toSummarize.getLast? with
      | some h, some l =>
        let summ : Summary :=
          { range := { startId := h.id, endId := l.id, startTs := h.ts, endTs := l.ts },
            text := out.summary, reasoning := out.reasoning, ts := env.clock s1.tick }
        let sums := s1.mem.summaries ++ [summ]
        let sums := if sums.length > MAX_SUMMARIES then sums.drop 1 else sums
        ({ s1.mem with summaries := sums }, s1.tick + 1)
      -- an empty slice would make `toSummarize[0].id` throw inside the
      -- try block; the catch swallows it and the shift still happens
      | _, _ => (s1.mem, s1.tick)
    | .error _ => (s1.mem, s1.tick)
  { s1 with
    mem := { afterTry.1 with interactions := afterTry.1.interactions.drop 1 },
    tick := afterTry.2 }

/-- memorySystem.js `addInteraction`: append a record with the next
sequence id and a timestamp, bump the count, and trigger
`summarizeAndShift` once the active list exceeds `MAX_INTERACTIONS`. -/
def addInteraction (env : MemEnv) (s : MemState)
    (userRequest : UserRequest) (aiResponse : AgentResponse) : MemState × Interaction :=
  let inter : Interaction :=
    { userRequest := userRequest, aiResponse := aiResponse,
      ts := env.clock s.tick, id := s.mem.count + 1 }
  let s : MemState :=
    { s with tick := s.tick + 1,
             mem := { s.mem with interactions := s.mem.interactions ++ [inter],
                                 count := s.mem.count + 1 } }
  let s := if s.mem.interactions.length > MAX_INTERACTIONS then summarizeAndShift env s else s
  (s, inter)

/-- Run a sequence of `addInteraction` calls. -/
def addAll (env : MemEnv) (s : MemState) (l : List (UserRequest × AgentResponse)) : MemState :=
  l.foldl (fun s p => (addInteraction env s p.1 p.2).1) s

/-- One summary block of `getMemoryContextString` (0-based index `i`). -/
def summaryBlock (i : Nat) (s : Summary) : String :=
  "Summary " ++ toString (i + 1) ++ " (Interactions " ++ toString s.range.startId ++
    "-" ++ toString s.range.endId ++ ", " ++ s.range.startTs ++ " to " ++
    s.range.endTs ++ "):\n" ++ s.text ++ "\n\n"

/-- One interaction block of `getMemoryContextString`; only the AI
content field is cut, at 200 characters. -/
def interactionBlock (i : Interaction) : String :=
  let userQuery := jsOr i.userRequest.query "Request data"
  let aiChoice := jsOr i.aiResponse.choice "response"
  let aiContent :=
    jsOr i.aiResponse.response
      (jsOr i.aiResponse.code (jsOr i.aiResponse.summary "Response data"))
  "[" ++ i.ts ++ "] Interaction " ++ toString i.id ++ ":\n" ++
    "User Query: " ++ userQuery ++ "\n" ++
    "AI Response Type: " ++ aiChoice ++ "\n" ++
    "AI Content: " ++ aiContent.take 200 ++
    (if aiContent.length > 200 then "..." else "") ++ "\n\n"

/-- memorySystem.js `getMemoryContextString`.  Note that the source
writes the recent-interactions heading in single quotes, so the
`$\x7b...\x7d` placeholder is emitted literally. -/
def getMemoryContextString (memory : Memory) : String :=
  let c1 :=
    if memory.summaries.length > 0 then
      "═══ CONVERSATION HISTORY (SUMMARIES) ═══\n\n" ++
        String.join ((memory.summaries.enum).map (fun p => summaryBlock p.1 p.2))
    else ""
  let c2 :=
    if memory.interactions.length > 0 then
      "═══ RECENT INTERACTIONS (Last $\x7bmemory.interactions.length\x7d) ═══\n\n" ++
        String.join (memory.interactions.map interactionBlock)
    else ""
  strTrim (c1 ++ c2)

/-- memorySystem.js `loadMemory`: `readFile` then `JSON.parse`, the
whole wrapped in try/catch returning the empty structure.  The file
read and the JSON parser are oracle inputs. -/
def loadMemory (readResult : Except String String)
    (parse : String → Except String Memory) : Memory :=
  match readResult with
  | .ok data =>
    match parse data with
    | .ok m => m
    | .error _ => emptyMemory
  | .error _ => emptyMemory

/-- The default notes template returned by `loadNotes` when the read
fails (notesManager.js lines 30-46). -/
def defaultNotes (sessionTs : String) : String :=
  "# Agent Notes\n\n## Current Task\nNone\n\n## Plan\nNo active plan\n\n" ++
    "## Context\n- Session started: " ++ sessionTs ++
    "\n\n## Completed\n- Nothing yet\n\n## Blockers\nNone\n"

/-- notesManager.js `loadNotes`: file content, or the default template
on any read failure. -/
def loadNotes (readResult : Except String String) (sessionTs : String) : String :=
  match readResult with
  | .ok content => content
  | .error _ => defaultNotes sessionTs

/- ═══════════════ Notes manager (notesManager.js) ═══════════════ -/

/-- JavaScript `s.replace(pat, rep)` with a plain-text pattern:
replace the first occurrence only (no-op when absent). -/
def listReplaceFirst (pat rep : List Char) : List Char → List Char
  | [] => if pat.isPrefixOf ([] : List Char) then rep else []
  | c :: t =>
    if pat.isPrefixOf (c :: t) then rep ++ (c :: t).drop pat.length
    else c :: listReplaceFirst pat rep t

/-- String version of `listReplaceFirst`. -/
def strReplaceFirst (s pat rep : String) : String :=
  ⟨listReplaceFirst pat.data rep.data s.data⟩

/-- JavaScript `s.replace(/HEADING\n[^#]*/, rep)`: at the first
occurrence of the heading, the heading plus the following run of
non-`#` characters is replaced by `rep` (no-op when absent). -/
def listReplaceSection (pat rep : List Char) : List Char → List Char
  | [] => if pat.isPrefixOf ([] : List Char) then rep else []
  | c :: t =>
    if pat.isPrefixOf (c :: t) then rep ++ ((c :: t).drop pat.length).dropWhile (· ≠ '#')
    else c :: listReplaceSection pat rep t

/-- String version of `listReplaceSection`. -/
def strReplaceSection (s pat rep : String) : String :=
  ⟨listReplaceSection pat.data rep.data s.data⟩

/-- One step of a plan (`planStepsAgentResponseSchema` item);
`reasoning = ""` models an absent rationale. -/
structure PlanStep where
  stepDescription : String
  reasoning : String
deriving Repr, DecidableEq

/-- notesManager.js `updateCurrentTask`. -/
def updateCurrentTaskStr (notes task : String) : String :=
  strReplaceSection notes "## Current Task\n" ("## Current Task\n" ++ task ++ "\n\n")

/-- One checklist line rendered by `setPlan` (0-based `idx`). -/
def planLineOf (idx : Nat) (step : PlanStep) : String :=
  "- [ ] " ++ toString (idx + 1) ++ ". " ++ step.stepDescription ++
    (if step.reasoning = "" then "" else " (" ++ step.reasoning ++ ")")

/-- notesManager.js `setPlan`. -/
def setPlanStr (notes : String) (steps : List PlanStep) : String :=
  strReplaceSection notes "## Plan\n"
    ("## Plan\n" ++ String.intercalate "\n" (steps.enum.map (fun p => planLineOf p.1 p.2)) ++ "\n\n")

/-- The line-scanning state machine of notesManager.js `completeStep`:
inside the plan section, the `stepNumber`-th checklist line has its
first `- [ ]` replaced by `- [x]`. -/
def completeStepLines (stepNumber : Nat) : List String → Bool → Nat → List String
  | [], _, _ => []
  | line :: rest, inPlan, count =>
    if strStarts line "## Plan" then line :: completeStepLines stepNumber rest true count
    else if strStarts line "##" then line :: completeStepLines stepNumber rest false count
    else if inPlan && strStarts (strTrim line) "- [" then
      (if count + 1 = stepNumber then strReplaceFirst line "- [ ]" "- [x]" else line) ::
        completeStepLines stepNumber rest inPlan (count + 1)
    else line :: completeStepLines stepNumber rest inPlan count

/-- notesManager.js `completeStep` (1-based step number). -/
def completeStepStr (notes : String) (stepNumber : Nat) : String :=
  String.intercalate "\n"
    (completeStepLines stepNumber ((splitChars (fun c => c = '\n') notes.data).map String.mk)
      false 0)

/-- Shared shape of `addContext` / `addCompleted` / `addBlocker`:
insert a timestamped line right below the section heading. -/
def addSectionLine (heading notes item ts : String) : String :=
  strReplaceFirst notes (heading ++ "\n") (heading ++ "\n- [" ++ ts ++ "] " ++ item ++ "\n")

/-- notesManager.js `addContext` (timestamp passed explicitly). -/
def addContextStr (notes item ts : String) : String := addSectionLine "## Context" notes item ts

/-- notesManager.js `addCompleted`. -/
def addCompletedStr (notes item ts : String) : String := addSectionLine "## Completed" notes item ts

/-- notesManager.js `addBlocker`. -/
def addBlockerStr (notes item ts : String) : String := addSectionLine "## Blockers" notes item ts

/- ═══════════════ Plan-step auto-completion (agentOrchestrator.js) ═══ -/

/-- `(actionContent + ' ' + (reasoning || '')).toLowerCase()`. -/
def actionTextOf (actionContent reasoning : String) : String :=
  asciiLower (actionContent ++ " " ++ reasoning)

/-- Does a step match the action text: at least 2 of the step
description's whitespace-split tokens of length > 4 occur as
substrings of the action text (agentOrchestrator.js lines 348-356)? -/
def stepMatches (step : PlanStep) (actionText : String) : Bool :=
  (((splitChars Char.isWhitespace (asciiLower step.stepDescription).data).filter
      (fun w => w.length > 4)).filter (fun kw => containsSeq actionText.data kw)).length ≥ 2

/-- First matching step, with its 0-based index (derived view of the
loop in `tryCompleteMatchingStep`; completion state plays no role). -/
def firstMatchAux (actionText : String) (i : Nat) : List PlanStep → Option (Nat × PlanStep)
  | [] => none
  | st :: t => if stepMatches st actionText then some (i, st) else firstMatchAux actionText (i + 1) t

/-- First matching step of a plan for a given action and rationale. -/
def firstMatch (steps : List PlanStep) (actionContent reasoning : String) :
    Option (Nat × PlanStep) :=
  firstMatchAux (actionTextOf actionContent reasoning) 0 steps

/-- Loop body of agentOrchestrator.js `tryCompleteMatchingStep`
acting on the notes document (timestamp for the audit line passed
explicitly): complete the step, add the audit context line, stop. -/
def tryCompleteAux (actionText ts : String) (i : Nat) (notes : String) :
    List PlanStep → String
  | [] => notes
  | st :: t =>
    if stepMatches st actionText then
      addContextStr (completeStepStr notes (i + 1))
        ("Auto-completed step " ++ toString (i + 1) ++ ": " ++ st.stepDescription) ts
    else tryCompleteAux actionText ts (i + 1) notes t

/-- agentOrchestrator.js `tryCompleteMatchingStep`. -/
def tryCompleteMatchingStep (steps : List PlanStep)
    (actionContent reasoning notes ts : String) : String :=
  tryCompleteAux (actionTextOf actionContent reasoning) ts 0 notes steps

/- ═══════════════ Orchestrator (agentOrchestrator.js) ═══════════════ -/

def MAX_CONTINUE_ITERATIONS : Nat := 5

def MAX_DENIAL_RETRIES : Nat := 2

/-- Landscape-agent structured result. -/
structure Landscape where
  situationSummary : String
  overallIntent : String
  suggestedApproach : String
  priority : String
  urgency : Bool
deriving Repr, DecidableEq

/-- Plan-steps-agent structured result. -/
structure Plan where
  steps : List PlanStep
  missingContext : List String
deriving Repr, DecidableEq

/-- Result of `executeCommand` (terminalExecutor, an external
collaborator per the spec: never throws, exit code carries failure). -/
structure ExecResult where
  output : String
  exitCode : Int
  error : String
deriving Repr, DecidableEq

/-- Result object of `handleTerminalCommand`. -/
structure TermResult where
  executed : Bool
  output : String
  exitCode : Option Int
  error : Option String
  approved : Bool
deriving Repr, DecidableEq

/-- The declined outcome (`approved: false`, nothing executed). -/
def declinedTermResult : TermResult :=
  { executed := false, output := "User declined to execute command",
    exitCode := none, error := none, approved := false }

/-- agentOrchestrator.js `handleTerminalCommand`.  `askApproval` is the
caller-supplied callback; `none` models the default `null`, and calling
a `null` callback raises a TypeError, modelled as `Except.error`. -/
def handleTerminalCommand (askApproval : Option (String → String → Bool))
    (exec : String → ExecResult) (r : AgentResponse) : Except String TermResult :=
  if r.requiresApproval then
    match askApproval with
    | none => .error "askApproval is not a function"
    | some f =>
      if f r.terminalCommand r.commandReasoning then
        let res := exec r.terminalCommand
        .ok { executed := true, output := res.output, exitCode := some res.exitCode,
              error := some res.error, approved := true }
      else .ok declinedTermResult
  else
    let res := exec r.terminalCommand
    .ok { executed := true, output := res.output, exitCode := some res.exitCode,
          error := some res.error, approved := true }

/-- `/\d+\./` — a digit immediately followed by a dot. -/
def digitDotMatch : List Char → Bool
  | [] => false
  | [_] => false
  | a :: b :: t => (a.isDigit && b = '.') || digitDotMatch (b :: t)

/-- `/step \d+/i` on lower-cased characters. -/
def stepNumMatch : List Char → Bool
  | [] => false
  | c :: t =>
    ("step ".data.isPrefixOf (c :: t) &&
        (match (c :: t).drop 5 with | d :: _ => d.isDigit | [] => false)) ||
      stepNumMatch t

/-- `/first.*then/i` on lower-cased characters (`.` does not cross a
newline in a JavaScript regex). -/
def firstThenMatch : List Char → Bool
  | [] => false
  | c :: t =>
    ("first".data.isPrefixOf (c :: t) &&
        containsSeq (((c :: t).drop 5).takeWhile (· ≠ '\n')) "then".data) ||
      firstThenMatch t

/-- agentOrchestrator.js `shouldUseLandscape`: any complexity
indicator fires (the last indicator is the sentence count). -/
def shouldUseLandscape (query : String) : Bool :=
  let lower := asciiLower query
  strContains lower "and then" || firstThenMatch lower.data ||
    strContains lower "multiple" || strContains lower "several" ||
    digitDotMatch query.data || stepNumMatch lower.data ||
    decide ((query.data.filter (fun c => c = '.' || c = '!' || c = '?')).length + 1 > 3)

/-- Prompt of `runLandscapeAnalysis`. -/
def landscapePrompt (query : String) (contextInfo : Option String) : String :=
  "Analyze this user query to understand overall intent and approach:\n\nUser Query: " ++
    query ++ "\n\n" ++
    (match contextInfo with
     | some c => if c = "" then "" else "Additional Context: " ++ c
     | none => "") ++
    "\n\nProvide a meta-analysis of what the user wants to accomplish."

/-- Prompt of `createPlanSteps`. -/
def planPrompt (query : String) (ls : Landscape) (contextInfo : Option String) : String :=
  "Break down this task into clear, actionable steps:\n\nUser Request: " ++ query ++
    "\n\nOverall Intent: " ++ ls.overallIntent ++ "\nSuggested Approach: " ++
    ls.suggestedApproach ++ "\n\n" ++
    (match contextInfo with
     | some c => if c = "" then "" else "Additional Context: " ++ c
     | none => "") ++
    "\n\nCreate a detailed step-by-step plan."

/-- The mutable `agentContext` object handed to `buildContextString`. -/
structure AgentCtx where
  memory : String
  notes : String
  userContext : Option String
  landscape : Option Landscape
  plan : Option Plan
  previousOutput : Option String
  previousResponse : Option AgentResponse
  iteration : Option Nat
deriving Repr, DecidableEq

/-- agentOrchestrator.js `buildContextString`.  JavaScript truthiness:
an absent or empty string section is skipped, iteration 0 would be
falsy. -/
def buildContextString (c : AgentCtx) : String :=
  let s1 := if c.memory = "" then "" else c.memory ++ "\n\n"
  let s2 :=
    match c.landscape with
    | some l =>
      "═══ LANDSCAPE ANALYSIS ═══\n" ++ "Intent: " ++ l.overallIntent ++ "\n" ++
        "Approach: " ++ l.suggestedApproach ++ "\n" ++ "Priority: " ++ l.priority ++ "\n\n"
    | none => ""
  let s3 :=
    match c.plan with
    | some p =>
      "═══ PLAN ═══\n" ++
        String.join (p.steps.enum.map (fun q => toString (q.1 + 1) ++ ". " ++
          q.2.stepDescription ++ "\n")) ++ "\n"
    | none => ""
  let s4 := if c.notes = "" then "" else "═══ AGENT NOTES ═══\n" ++ c.notes ++ "\n\n"
  let s5 :=
    match c.previousResponse with
    | some r =>
      "═══ PREVIOUS RESPONSE ═══\n" ++ "Choice: " ++ r.choice ++ "\n" ++
        (if r.response = "" then "" else "Response: " ++ r.response ++ "\n") ++ "\n"
    | none => ""
  let s6 :=
    match c.previousOutput with
    | some o => if o = "" then "" else "═══ TERMINAL OUTPUT ═══\n" ++ o ++ "\n\n"
    | none => ""
  let s7 :=
    match c.userContext with
    | some u => if u = "" then "" else "═══ USER CONTEXT ═══\n" ++ u ++ "\n\n"
    | none => ""
  let s8 :=
    match c.iteration with
    | some n => if n = 0 then "" else "[Iteration " ++ toString n ++ "]\n\n"
    | none => ""
  s1 ++ s2 ++ s3 ++ s4 ++ s5 ++ s6 ++ s7 ++ s8

/-- The collaborators of one `orchestrate` run (all oracles): the
turn-level base agent, the landscape and plan-steps agents, command
execution, the wall clock, and the summarize agent used by memory. -/
structure Env where
  agent : String → String → AgentResponse
  landscapeAgent : String → Landscape
  planAgent : String → Plan
  exec : String → ExecResult
  clock : Nat → String
  summarize : String → Except String SummarizeOut

/-- The `options` argument of `orchestrate`.  Observer callbacks
(`onThinking`, `onResponse`) are pure observers and not modelled. -/
structure OrchOptions where
  userContext : Option String
  askApproval : Option (String → String → Bool)
  skipLandscape : Bool

/-- Mutable world: the persisted memory and notes documents, a clock
tick, plus ghost instrumentation (number of turn-level base-agent
calls, number of summarize-collaborator calls, and the log of the
`agentContext` values handed to the base agent). -/
structure World where
  memory : Memory
  notes : String
  tick : Nat
  nAgentCalls : Nat
  nSummarizeCalls : Nat
  ctxLog : List AgentCtx
deriving DecidableEq

def memEnvOf (env : Env) : MemEnv := { clock := env.clock, summarize := env.summarize }

/-- `addInteraction({query, context: userContext}, response)` lifted to
the world. -/
def addInteractionW (env : Env) (w : World) (query : String)
    (userContext : Option String) (r : AgentResponse) : World :=
  let req : UserRequest := { query := query, context := userContext.getD "" }
  let ms := addInteraction (memEnvOf env)
    { mem := w.memory, tick := w.tick, nSummarizeCalls := w.nSummarizeCalls } req r
  { w with memory := ms.1.mem, tick := ms.1.tick, nSummarizeCalls := ms.1.nSummarizeCalls }

/-- `addBlocker` lifted to the world (one clock read). -/
def addBlockerW (env : Env) (w : World) (b : String) : World :=
  { w with notes := addBlockerStr w.notes b (env.clock w.tick), tick := w.tick + 1 }

/-- `addCompleted` lifted to the world (one clock read). -/
def addCompletedW (env : Env) (w : World) (b : String) : World :=
  { w with notes := addCompletedStr w.notes b (env.clock w.tick), tick := w.tick + 1 }

/-- `updateCurrentTask` lifted to the world. -/
def updateCurrentTaskW (w : World) (t : String) : World :=
  { w with notes := updateCurrentTaskStr w.notes t }

/-- `setPlan` lifted to the world. -/
def setPlanW (w : World) (steps : List PlanStep) : World :=
  { w with notes := setPlanStr w.notes steps }

/-- `tryCompleteMatchingStep` lifted to the world; the clock ticks
exactly when a step matched (the audit line reads the clock). -/
def tryCompleteW (env : Env) (w : World) (steps : List PlanStep)
    (actionContent reasoning : String) : World :=
  { w with
    notes := tryCompleteMatchingStep steps actionContent reasoning w.notes (env.clock w.tick),
    tick := if (firstMatch steps actionContent reasoning).isSome then w.tick + 1 else w.tick }

/-- The denial-tracking update on a declined command
(agentOrchestrator.js lines 213-218): same command again increments
the counter, a different command resets it to 1. -/
def denialUpdate (lastDenied : Option String) (denial : Nat) (cmd : String) :
    Option String × Nat :=
  if lastDenied = some cmd then (lastDenied, denial + 1) else (some cmd, 1)

/-- Outcome of the terminal-command branch of one loop pass:
either the denial-limit break fires, or the loop continues with the
updated context and denial state. -/
inductive LoopStep where
  | halt (w : World)
  | go (ctx : AgentCtx) (denial : Nat) (lastDenied : Option String) (w : World)

/-- The terminal-command branch of the iteration loop
(agentOrchestrator.js lines 190-227). -/
def termDispatch (env : Env) (opts : OrchOptions) (plan : Option Plan)
    (r : AgentResponse) (ctx : AgentCtx) (denial : Nat) (lastDenied : Option String)
    (w : World) : Except String LoopStep :=
  match handleTerminalCommand opts.askApproval env.exec r with
  | .error e => .error e
  | .ok tr =>
    let ctx := { ctx with previousOutput := some tr.output }
    if tr.executed then
      let w := addCompletedW env w ("Executed: " ++ r.terminalCommand)
      let w :=
        match plan with
        | some p => tryCompleteW env w p.steps r.terminalCommand r.commandReasoning
        | none => w
      .ok (.go ctx 0 none w)
    else
      let w := addBlockerW env w ("Command declined: " ++ r.terminalCommand)
      let s := denialUpdate lastDenied denial r.terminalCommand
      if s.2 ≥ MAX_DENIAL_RETRIES then
        .ok (.halt (addBlockerW env w "Too many command denials - stopping iteration"))
      else .ok (.go ctx s.2 s.1 w)

/-- Tail of one loop pass (agentOrchestrator.js lines 229-259): the
code branch, missing-context blockers, memory recording, and the
`agentContext` update for the next pass. -/
def tailUpdate (env : Env) (opts : OrchOptions) (query : String) (plan : Option Plan)
    (r : AgentResponse) (ctx : AgentCtx) (i : Nat) (w : World) : AgentCtx × World :=
  let w :=
    if r.choice = "code" then
      let w := addCompletedW env w ("Generated " ++ r.language ++ " code")
      match plan with
      | some p => tryCompleteW env w p.steps r.code r.codeExplanation
      | none => w
    else w
  let w := r.missingContext.foldl (fun w m => addBlockerW env w ("Missing: " ++ m)) w
  let w := addInteractionW env w query opts.userContext r
  ({ ctx with previousResponse := some r, iteration := some i }, w)

/-- The base-agent iteration loop (agentOrchestrator.js lines 171-264):
`iter` passes are already complete.  The loop's own continuation guard
is `iter + 1 < MAX_CONTINUE_ITERATIONS`, exactly as in the source; the
extra `fuel` argument only makes the recursion structural and is
chosen at the call site (`MAX_CONTINUE_ITERATIONS`, with `iter = 0`)
so that it can never run out before the guard stops the loop (the
fuel-exhausted branch returns the same loop-exit value).  On a thrown
error (`Except.error`) the accumulated responses are discarded, as in
the source. -/
def orchLoop (env : Env) (opts : OrchOptions) (query : String) (plan : Option Plan) :
    Nat → AgentCtx → Nat → Nat → Option String → List AgentResponse → World →
      Except String (List AgentResponse × Nat) × World
  | fuel, ctx, iter, denial, lastDenied, responses, w =>
    let i := iter + 1
    let ctxStr := buildContextString ctx
    let w := { w with nAgentCalls := w.nAgentCalls + 1, ctxLog := w.ctxLog ++ [ctx] }
    let r := env.agent query ctxStr
    let responses := responses ++ [r]
    let dispatched : Except String LoopStep :=
      if r.choice = "terminalCommand" then termDispatch env opts plan r ctx denial lastDenied w
      else .ok (.go ctx denial lastDenied w)
    match dispatched with
    | .error e => (.error e, w)
    | .ok (.halt w2) => (.ok (responses, i), w2)
    | .ok (.go ctx2 den2 last2 w2) =>
      let p := tailUpdate env opts query plan r ctx2 i w2
      if r.cont ∧ i < MAX_CONTINUE_ITERATIONS then
        match fuel with
        | fuel' + 1 => orchLoop env opts query plan fuel' p.1 i den2 last2 responses p.2
        | 0 => (.ok (responses, i), p.2)
      else (.ok (responses, i), p.2)

/-- Return value of `orchestrate` on success. -/
structure OrchResult where
  responses : List AgentResponse
  landscape : Option Landscape
  plan : Option Plan
  iterations : Nat
deriving Repr, DecidableEq

/-- Steps 1-2 of `orchestrate` (agentOrchestrator.js lines 139-158):
optional landscape analysis, optional planning with scratchpad
updates. -/
def landscapePhase (env : Env) (query : String) (opts : OrchOptions) (w : World) :
    Option Landscape × Option Plan × World :=
  if !opts.skipLandscape && shouldUseLandscape query then
    let ls := env.landscapeAgent (landscapePrompt query opts.userContext)
    if ls.priority = "high" || ls.priority = "critical" then
      let pl := env.planAgent (planPrompt query ls opts.userContext)
      let w := updateCurrentTaskW w
        (ls.overallIntent ++ "\n\nPriority: " ++ ls.priority ++ "\nApproach: " ++
          ls.suggestedApproach)
      let w := setPlanW w pl.steps
      let w := pl.missingContext.foldl (fun w m => addBlockerW env w ("Missing: " ++ m)) w
      (some ls, some pl, w)
    else (some ls, none, w)
  else (none, none, w)

/-- agentOrchestrator.js `orchestrate`: load notes and memory context,
optionally run landscape analysis and planning, then the iteration
loop; the catch block records an error blocker and rethrows. -/
def orchestrate (env : Env) (query : String) (opts : OrchOptions) (w : World) :
    Except String OrchResult × World :=
  let notes := w.notes
  let memoryContext := getMemoryContextString w.memory
  let phase := landscapePhase env query opts w
  let ctx0 : AgentCtx :=
    { memory := memoryContext, notes := notes, userContext := opts.userContext,
      landscape := phase.1, plan := phase.2.1, previousOutput := none,
      previousResponse := none, iteration := none }
  match orchLoop env opts query phase.2.1 MAX_CONTINUE_ITERATIONS ctx0 0 0 none [] phase.2.2 with
  | (.ok rs, w) =>
    (.ok { responses := rs.1, landscape := phase.1, plan := phase.2.1, iterations := rs.2 }, w)
  | (.error e, w) => (.error e, addBlockerW env w ("Error: " ++ e))

/- ═══════════════ Persistence layer (save paths, for C9) ═══════════ -/

/-- A primitive filesystem operation issued by the persistence layer. -/
inductive FsOp where
  | writeFile (path content : String)
  | rename (src dst : String)
  | unlink (path : String)
deriving Repr, DecidableEq

/-- The filesystem trace of memorySystem.js `saveMemory` (line 47):
one direct `fs.writeFile` on the real memory file. -/
def saveMemoryOps (memoryFile json : String) : List FsOp :=
  [FsOp.writeFile memoryFile json]

/-- The filesystem trace of notesManager.js `saveNotes` (line 54):
one direct `fs.writeFile` on the real notes file. -/
def saveNotesOps (notesFile content : String) : List FsOp :=
  [FsOp.writeFile notesFile content]

/-- The write discipline the specification describes: write a
temporary file distinct from the real one, then atomically rename it
over the real file. -/
def isAtomicTempWrite (ops : List FsOp) (realPath : String) : Bool :=
  match ops with
  | [FsOp.writeFile tmp _, FsOp.rename src dst] => tmp = src && dst = realPath && !(tmp = realPath)
  | _ => false

/- ═══════════════ Derived views and concrete instances ═══════════ -/

/-- The `agentContext` with which the iteration loop starts when the
landscape phase is skipped or produces no plan. -/
def initialCtx (query : String) (opts : OrchOptions) (w : World) : AgentCtx :=
  { memory := getMemoryContextString w.memory, notes := w.notes,
    userContext := opts.userContext, landscape := none, plan := none,
    previousOutput := none, previousResponse := none, iteration := none }

/-- Ids of the active interactions after `k` additions from empty. -/
def idsAfter (k : Nat) : List Nat :=
  if k ≤ 21 then List.range' 1 k else List.range' (k - 20) 21

/-- Summary id ranges after `k` additions from empty (with a
summarizer that always succeeds): one summarization per addition
beyond the 21st, covering the most recent 21 ids, keeping the last 3. -/
def rangesAfter (k : Nat) : List (Nat × Nat) :=
  ((List.range' 22 (k - 21)).map (fun j => (j - 20, j))).drop ((k - 21) - 3)

/-- State description after `k` additions from the empty memory. -/
def MemInv (k : Nat) (s : MemState) : Prop :=
  s.mem.count = k ∧
  s.mem.interactions.map (fun i => i.id) = idsAfter k ∧
  s.mem.summaries.map (fun x => (x.range.startId, x.range.endId)) = rangesAfter k ∧
  s.nSummarizeCalls = k - 21

/-- Claim-side predicate (from the specification's words): consecutive
covered ranges are contiguous and non-overlapping,
i.e. each range starts right after the previous one ends. -/
def rangesContiguous : List (Nat × Nat) → Bool
  | p :: q :: t => (q.1 = p.2 + 1) && rangesContiguous (q :: t)
  | _ => true

/-- Claim-side predicate (from the specification's words): consecutive
covered ranges do not overlap. -/
def rangesDisjoint : List (Nat × Nat) → Bool
  | p :: q :: t => (p.2 < q.1) && rangesDisjoint (q :: t)
  | _ => true

/-- Trivial memory environment: constant clock, always-succeeding
summarizer. -/
def envMem0 : MemEnv := { clock := fun _ => "T", summarize := fun _ => .ok ⟨"S", "R"⟩ }

def req0 : UserRequest := { query := "q", context := "c" }

/-- A minimal plain response. -/
def mkResp (choice cmd : String) (reqApp contv : Bool) : AgentResponse :=
  { choice := choice, response := "", questionsForUser := false, questions := [],
    missingContext := [], code := "", language := "", codeExplanation := "",
    terminalCommand := cmd, commandReasoning := "", requiresApproval := reqApp,
    cont := contv, summary := "" }

def resp0 : AgentResponse := { mkResp "response" "" false false with response := "r" }

def st0 : MemState := { mem := emptyMemory, tick := 0, nSummarizeCalls := 0 }

/-- Failing input for the truncation claim: a stored response whose
content field is 210 characters long (within the claimed 300-char
cap). -/
def respC8 : AgentResponse := { mkResp "response" "" false false with response := repChar 'c' 210 }

/-- Failing input for the truncation claim: one interaction with a
210-character query (over the claimed 200-char cap) and the
210-character response content of `respC8`. -/
def memC8i : Memory :=
  let inter : Interaction :=
    { userRequest := { query := repChar 'q' 210, context := "" },
      aiResponse := respC8, ts := "T2", id := 22 }
  { interactions := [inter], summaries := [], count := 22 }

/-- Failing input for the truncation claim: one stored summary whose
text is 501 characters long (over the claimed 500-char cap). -/
def memC8s : Memory :=
  let summ : Summary :=
    { range := { startId := 1, endId := 21, startTs := "T0", endTs := "T1" },
      text := repChar 's' 501, reasoning := "R", ts := "TS" }
  { interactions := [], summaries := [summ], count := 22 }

def notesBase : String := defaultNotes "T0"

def world0 : World :=
  { memory := emptyMemory, notes := notesBase, tick := 0, nAgentCalls := 0,
    nSummarizeCalls := 0, ctxLog := [] }

def defaultLandscape : Landscape :=
  { situationSummary := "", overallIntent := "", suggestedApproach := "",
    priority := "low", urgency := false }

def exec0 : String → ExecResult := fun _ => { output := "out", exitCode := 0, error := "" }

/-- Environment whose base agent always proposes the same
approval-required terminal command and always asks to continue. -/
def envDeny : Env :=
  { agent := fun _ _ => mkResp "terminalCommand" "rm -rf tmp" true true,
    landscapeAgent := fun _ => defaultLandscape, planAgent := fun _ => ⟨[], []⟩,
    exec := exec0, clock := fun n => "T" ++ toString n,
    summarize := fun _ => .ok ⟨"S", "R"⟩ }

/-- Options with an always-denying approval callback. -/
def optsDeny : OrchOptions :=
  { userContext := none, askApproval := some (fun _ _ => false), skipLandscape := true }

/-- Options without an approval callback (`askApproval: null`). -/
def optsNoCb : OrchOptions :=
  { userContext := none, askApproval := none, skipLandscape := true }

/-- A plain always-continue response. -/
def respSimple : AgentResponse := { mkResp "response" "" false true with response := "hi" }

/-- Environment whose base agent always gives a plain response with
the continuation flag set. -/
def envSimple : Env := { envDeny with agent := fun _ _ => respSimple }

/-- The memory state recorded at the end of the first iteration of
`orchestrate envSimple "q" optsNoCb world0`. -/
def memAfter1 : Memory :=
  (addInteraction (memEnvOf envSimple) st0 { query := "q", context := "" } respSimple).1.mem

/-- An approval-required terminal-command response. -/
def respApprove : AgentResponse := mkResp "terminalCommand" "ls -la" true false

/-- A single-step plan whose step is already checked in `notesC6`. -/
def stepsC6 : List PlanStep := [{ stepDescription := "Check package manifest contents", reasoning := "" }]

/-- Notes document whose only plan step is already complete. -/
def notesC6 : String :=
  "# Agent Notes\n\n## Current Task\nTest\n\n## Plan\n- [x] 1. Check package manifest contents\n\n" ++
    "## Context\n- Session started: T0\n\n## Completed\n- Nothing yet\n\n## Blockers\nNone\n"

/- ═══════════════ Helper lemmas ═══════════════ -/

@[simp] lemma addBlockerW_memory (env : Env) (w : World) (b : String) :
    (addBlockerW env w b).memory = w.memory := rfl

@[simp] lemma addBlockerW_nAgentCalls (env : Env) (w : World) (b : String) :
    (addBlockerW env w b).nAgentCalls = w.nAgentCalls := rfl

@[simp] lemma addBlockerW_ctxLog (env : Env) (w : World) (b : String) :
    (addBlockerW env w b).ctxLog = w.ctxLog := rfl

@[simp] lemma addCompletedW_memory (env : Env) (w : World) (b : String) :
    (addCompletedW env w b).memory = w.memory := rfl

@[simp] lemma addCompletedW_nAgentCalls (env : Env) (w : World) (b : String) :
    (addCompletedW env w b).nAgentCalls = w.nAgentCalls := rfl

@[simp] lemma addCompletedW_ctxLog (env : Env) (w : World) (b : String) :
    (addCompletedW env w b).ctxLog = w.ctxLog := rfl

@[simp] lemma tryCompleteW_memory (env : Env) (w : World) (steps : List PlanStep)
    (a r : String) : (tryCompleteW env w steps a r).memory = w.memory := rfl

@[simp] lemma tryCompleteW_nAgentCalls (env : Env) (w : World) (steps : List PlanStep)
    (a r : String) : (tryCompleteW env w steps a r).nAgentCalls = w.nAgentCalls := rfl

@[simp] lemma tryCompleteW_ctxLog (env : Env) (w : World) (steps : List PlanStep)
    (a r : String) : (tryCompleteW env w steps a r).ctxLog = w.ctxLog := rfl

@[simp] lemma updateCurrentTaskW_nAgentCalls (w : World) (t : String) :
    (updateCurrentTaskW w t).nAgentCalls = w.nAgentCalls := rfl

@[simp] lemma updateCurrentTaskW_ctxLog (w : World) (t : String) :
    (updateCurrentTaskW w t).ctxLog = w.ctxLog := rfl

@[simp] lemma updateCurrentTaskW_memory (w : World) (t : String) :
    (updateCurrentTaskW w t).memory = w.memory := rfl

@[simp] lemma setPlanW_nAgentCalls (w : World) (steps : List PlanStep) :
    (setPlanW w steps).nAgentCalls = w.nAgentCalls := rfl

@[simp] lemma setPlanW_ctxLog (w : World) (steps : List PlanStep) :
    (setPlanW w steps).ctxLog = w.ctxLog := rfl

@[simp] lemma setPlanW_memory (w : World) (steps : List PlanStep) :
    (setPlanW w steps).memory = w.memory := rfl

@[simp] lemma addInteractionW_nAgentCalls (env : Env) (w : World) (q : String)
    (uc : Option String) (r : AgentResponse) :
    (addInteractionW env w q uc r).nAgentCalls = w.nAgentCalls := rfl

@[simp] lemma addInteractionW_ctxLog (env : Env) (w : World) (q : String)
    (uc : Option String) (r : AgentResponse) :
    (addInteractionW env w q uc r).ctxLog = w.ctxLog := rfl

@[simp] lemma addInteractionW_notes (env : Env) (w : World) (q : String)
    (uc : Option String) (r : AgentResponse) :
    (addInteractionW env w q uc r).notes = w.notes := rfl

lemma foldl_addBlockerW_nAgentCalls (env : Env) (g : String → String) :
    ∀ (l : List String) (w : World),
      (l.foldl (fun w m => addBlockerW env w (g m)) w).nAgentCalls = w.nAgentCalls
  | [], _ => rfl
  | m :: t, w => by
    simp only [List.foldl_cons]
    rw [foldl_addBlockerW_nAgentCalls env g t]
    simp

lemma foldl_addBlockerW_ctxLog (env : Env) (g : String → String) :
    ∀ (l : List String) (w : World),
      (l.foldl (fun w m => addBlockerW env w (g m)) w).ctxLog = w.ctxLog
  | [], _ => rfl
  | m :: t, w => by
    simp only [List.foldl_cons]
    rw [foldl_addBlockerW_ctxLog env g t]
    simp

lemma foldl_addBlockerW_memory (env : Env) (g : String → String) :
    ∀ (l : List String) (w : World),
      (l.foldl (fun w m => addBlockerW env w (g m)) w).memory = w.memory
  | [], _ => rfl
  | m :: t, w => by
    simp only [List.foldl_cons]
    rw [foldl_addBlockerW_memory env g t]
    simp

/-- Loop of `tryCompleteMatchingStep` as a first-match computation:
the loop applies at most one completion, namely at the first matching
step, and completion state of steps plays no role. -/
lemma tryCompleteAux_firstMatch (actionText ts : String) :
    ∀ (steps : List PlanStep) (i : Nat) (notes : String),
      tryCompleteAux actionText ts i notes steps =
        match firstMatchAux actionText i steps with
        | none => notes
        | some (j, st) =>
          addContextStr (completeStepStr notes (j + 1))
            ("Auto-completed step " ++ toString (j + 1) ++ ": " ++ st.stepDescription) ts
  | [], _, _ => rfl
  | st :: t, i, notes => by
    simp only [tryCompleteAux, firstMatchAux]
    by_cases hm : stepMatches st actionText = true
    · simp only [if_pos hm]
    · simp only [if_neg hm]
      exact tryCompleteAux_firstMatch actionText ts t (i + 1) notes

/- ═══════════════ Claim theorems ═══════════════ -/

/-- C9: the claim says every persistence write of the memory store and
scratchpad goes through a temporary file atomically replacing the real
file.  The code instead issues a single direct `fs.writeFile` on the
real path for both stores, which does not match the atomic
temp-file-plus-rename discipline. -/
theorem spec_c9_direct_write (p c : String) :
    saveMemoryOps p c = [FsOp.writeFile p c] ∧
    isAtomicTempWrite (saveMemoryOps p c) p = false ∧
    saveNotesOps p c = [FsOp.writeFile p c] ∧
    isAtomicTempWrite (saveNotesOps p c) p = false :=
  ⟨rfl, rfl, rfl, rfl⟩

/-- C10: loading is total: every read or parse failure yields the
default empty memory state (respectively the default notes template),
and a subsequent `addInteraction` restarts from the empty state with
id 1 and count 1. -/
theorem spec_c10_load_defaults (e d e2 ts : String)
    (parse : String → Except String Memory) (env : MemEnv)
    (req : UserRequest) (resp : AgentResponse)
    (hp : parse d = Except.error e2) :
    loadMemory (Except.error e) parse = emptyMemory ∧
    loadMemory (Except.ok d) parse = emptyMemory ∧
    loadNotes (Except.error e) ts = defaultNotes ts ∧
    (addInteraction env
        { mem := loadMemory (Except.error e) parse, tick := 0, nSummarizeCalls := 0 }
        req resp).1.mem.interactions.map (fun i => i.id) = [1] ∧
    (addInteraction env
        { mem := loadMemory (Except.error e) parse, tick := 0, nSummarizeCalls := 0 }
        req resp).1.mem.count = 1 := by
  refine ⟨rfl, ?_, rfl, ?_, ?_⟩
  · simp [loadMemory, hp]
  · simp [loadMemory, addInteraction, emptyMemory, MAX_INTERACTIONS]
  · simp [loadMemory, addInteraction, emptyMemory, MAX_INTERACTIONS]

/-- Witness for C10 at a concrete failed read and a concrete failed
parse. -/
theorem spec_c10_witness :
    loadMemory (Except.error "ENOENT") (fun _ => Except.error "bad json") = emptyMemory ∧
    loadMemory (Except.ok "garbage") (fun _ => Except.error "bad json") = emptyMemory ∧
    loadNotes (Except.error "ENOENT") "T0" = defaultNotes "T0" ∧
    (addInteraction envMem0
        { mem := loadMemory (Except.error "ENOENT") (fun _ => Except.error "bad json"),
          tick := 0, nSummarizeCalls := 0 }
        req0 resp0).1.mem.interactions.map (fun i => i.id) = [1] ∧
    (addInteraction envMem0
        { mem := loadMemory (Except.error "ENOENT") (fun _ => Except.error "bad json"),
          tick := 0, nSummarizeCalls := 0 }
        req0 resp0).1.mem.count = 1 :=
  spec_c10_load_defaults "ENOENT" "garbage" "bad json" "T0"
    (fun _ => Except.error "bad json") envMem0 req0 resp0 rfl

set_option maxRecDepth 6000 in
/-- C8: the claim says the rendered context caps queries at 200,
response content at 300 and summary text at 500 characters, each with
a marker exactly when cut.  The code renders the 210-character query
in full with no marker, cuts the 210-character response content at 200
(not 300) characters, and renders the 501-character summary text in
full with no marker. -/
theorem spec_c8_truncation :
    getMemoryContextString memC8i =
      "═══ RECENT INTERACTIONS (Last $\x7bmemory.interactions.length\x7d) ═══\n\n" ++
        "[T2] Interaction 22:\nUser Query: " ++ repChar 'q' 210 ++
        "\nAI Response Type: response\nAI Content: " ++ repChar 'c' 200 ++ "..." ∧
    getMemoryContextString memC8s =
      "═══ CONVERSATION HISTORY (SUMMARIES) ═══\n\nSummary 1 (Interactions 1-21, T0 to T1):\n" ++
        repChar 's' 501 := by
  exact ⟨by decide, by decide⟩

set_option maxRecDepth 4000 in
/-- C6 counterexample: the only plan step is already checked in the
notes and matches the action text; the claim predicts a no-op, but the
code still fires on the completed step and appends an audit context
line, changing the document. -/
theorem spec_c6_cex :
    tryCompleteMatchingStep stepsC6 "check package manifest contents now" "" notesC6 "T1" =
      "# Agent Notes\n\n## Current Task\nTest\n\n## Plan\n- [x] 1. Check package manifest contents\n\n" ++
        "## Context\n- [T1] Auto-completed step 1: Check package manifest contents\n- Session started: T0\n\n" ++
        "## Completed\n- Nothing yet\n\n## Blockers\nNone\n" ∧
    (tryCompleteMatchingStep stepsC6 "check package manifest contents now" "" notesC6 "T1" =
      notesC6) = False := by
  refine ⟨by decide, eq_false (by decide)⟩

/-- C6 amended: the matcher scans all steps regardless of completion
state; per action it applies at most one completion — at the first
step in original order whose description shares at least 2 significant
keywords (length > 4, case-insensitive, substring occurrence) with the
action-plus-rationale text — flipping that step's checkbox ordinal in
the notes and appending an audit context line; with no matching step
the notes are unchanged. -/
theorem spec_c6_amended (steps : List PlanStep) (a r notes ts : String) :
    tryCompleteMatchingStep steps a r notes ts =
      match firstMatch steps a r with
      | none => notes
      | some (j, st) =>
        addContextStr (completeStepStr notes (j + 1))
          ("Auto-completed step " ++ toString (j + 1) ++ ": " ++ st.stepDescription) ts :=
  tryCompleteAux_firstMatch (actionTextOf a r) ts steps 0 notes

/-- C5 counterexample: an approval-required command with the callback
absent does not produce the declined outcome (as a present callback
returning false does): the call raises instead. -/
theorem spec_c5_cex :
    handleTerminalCommand none exec0 respApprove =
      Except.error "askApproval is not a function" ∧
    handleTerminalCommand (some (fun _ _ => false)) exec0 respApprove =
      Except.ok declinedTermResult ∧
    (Except.error "askApproval is not a function" =
      (Except.ok declinedTermResult : Except String TermResult)) = False :=
  ⟨rfl, rfl, eq_false (by simp)⟩

lemma idsAfter_length (k : Nat) : (idsAfter k).length = min k 21 := by
  unfold idsAfter; split <;> simp [List.length_range'] <;> omega

lemma idsAfter_of_ge (k : Nat) (h : 21 ≤ k) : idsAfter k = List.range' (k - 20) 21 := by
  unfold idsAfter
  split
  · have hk : k = 21 := Nat.le_antisymm (by assumption) h
    subst hk; norm_num
  · rfl

lemma idsAfter_of_le (k : Nat) (h : k ≤ 21) : idsAfter k = List.range' 1 k := by
  unfold idsAfter; rw [if_pos h]

lemma rangesAfter_of_le (k : Nat) (h : k ≤ 21) : rangesAfter k = [] := by
  unfold rangesAfter
  have h0 : k - 21 = 0 := by omega
  simp [h0]

/-- Behaviour of `summarizeAndShift` on a full window whose ids are
`a .. a+21`, with a succeeding summarizer. -/
lemma summarizeAndShift_spec (env : MemEnv)
    (hsum : ∀ t, ∃ out, env.summarize t = Except.ok out)
    (s : MemState) (a : Nat)
    (hi : s.mem.interactions.map (fun i => i.id) = List.range' a 22) :
    (summarizeAndShift env s).mem.interactions.map (fun i => i.id) = List.range' (a + 1) 21 ∧
    (summarizeAndShift env s).mem.summaries.map (fun x => (x.range.startId, x.range.endId)) =
      (if s.mem.summaries.length + 1 > 3 then
        (s.mem.summaries.map (fun x => (x.range.startId, x.range.endId)) ++
          [(a + 1, a + 21)]).drop 1
      else
        s.mem.summaries.map (fun x => (x.range.startId, x.range.endId)) ++ [(a + 1, a + 21)]) ∧
    (summarizeAndShift env s).mem.count = s.mem.count ∧
    (summarizeAndShift env s).nSummarizeCalls = s.nSummarizeCalls + 1 := by
  obtain ⟨out, hout⟩ := hsum (contextTextOf (s.mem.interactions.drop 1))
  have hts : (s.mem.interactions.drop 1).map (fun i => i.id) = List.range' (a + 1) 21 := by
    rw [List.map_drop, hi, List.range'_succ]
    rfl
  have hhead : ∃ h0, (s.mem.interactions.drop 1).head? = some h0 ∧ h0.id = a + 1 := by
    have h2 : ((s.mem.interactions.drop 1).map (fun i => i.id)).head? = some (a + 1) := by
      rw [hts, List.range'_succ]; rfl
    rw [List.head?_map] at h2
    exact Option.map_eq_some'.mp h2
  have hlast : ∃ l0, (s.mem.interactions.drop 1).getLast? = some l0 ∧ l0.id = a + 21 := by
    have hsplit : List.range' (a + 1) 21 = List.range' (a + 1) 20 ++ [a + 21] := by
      have h21 : a + 1 + 1 * 20 = a + 21 := by omega
      rw [List.range'_concat, h21]
    have h3 : ((s.mem.interactions.drop 1).map (fun i => i.id)).getLast? = some (a + 21) := by
      rw [hts, hsplit, List.getLast?_append]; rfl
    rw [List.getLast?_map] at h3
    exact Option.map_eq_some'.mp h3
  obtain ⟨h0, hh0, hid0⟩ := hhead
  obtain ⟨l0, hl0, hidl⟩ := hlast
  unfold summarizeAndShift
  simp only [hout, hh0, hl0, MAX_SUMMARIES]
  refine ⟨?_, ?_, ?_, ?_⟩
  · rw [List.map_drop, hi, List.range'_succ]
    rfl
  · by_cases hc : s.mem.summaries.length + 1 > 3
    · simp only [List.length_append, List.length_cons, List.length_nil, if_pos, hid0, hidl]
      rw [if_pos (by simpa using hc), if_pos (by simpa using hc)]
      simp [List.map_drop]
    · simp only [List.length_append, List.length_cons, List.length_nil, hid0, hidl]
      rw [if_neg (by simpa using hc), if_neg (by simpa using hc)]
      simp
  · by_cases hc : (s.mem.summaries ++
        [{ range := { startId := h0.id, endId := l0.id, startTs := h0.ts, endTs := l0.ts },
           text := out.summary, reasoning := out.reasoning,
           ts := env.clock s.tick : Summary }]).length > 3 <;>
      simp [hc]
  · trivial

/-- Appending the next overlapping range (and evicting beyond 3)
advances `rangesAfter`. -/
lemma rangesAfter_step (k : Nat) (hk : 21 ≤ k) :
    (if (rangesAfter k).length + 1 > 3 then (rangesAfter k ++ [(k - 19, k + 1)]).drop 1
     else rangesAfter k ++ [(k - 19, k + 1)]) = rangesAfter (k + 1) := by
  have hm : k + 1 - 21 = (k - 21) + 1 := by omega
  unfold rangesAfter
  rw [hm]
  have h22 : 22 + 1 * (k - 21) = k + 1 := by omega
  rw [List.range'_concat, h22, List.map_append]
  have h20 : k + 1 - 20 = k - 19 := by omega
  simp only [List.map_cons, List.map_nil, h20]
  have hlen : ((List.range' 22 (k - 21)).map (fun j => (j - 20, j))).length = k - 21 := by
    simp [List.length_map, List.length_range']
  have hjoin :
      ((List.range' 22 (k - 21)).map (fun j => (j - 20, j))).drop ((k - 21) - 3) ++
          [(k - 19, k + 1)] =
        (((List.range' 22 (k - 21)).map (fun j => (j - 20, j))) ++ [(k - 19, k + 1)]).drop
          ((k - 21) - 3) := by
    rw [List.drop_append_eq_append_drop]
    have hz : (k - 21) - 3 - ((List.range' 22 (k - 21)).map (fun j => (j - 20, j))).length = 0 := by
      rw [hlen]; omega
    rw [hz, List.drop_zero]
  by_cases h3 : 3 ≤ k - 21
  · rw [if_pos (by simp [List.length_drop, hlen]; omega)]
    rw [hjoin, List.drop_drop]
    congr 1
    omega
  · rw [if_neg (by simp [List.length_drop, hlen]; omega)]
    rw [hjoin]
    congr 1
    omega

/-- One `addInteraction` step preserves the window description. -/
lemma addInteraction_inv (env : MemEnv)
    (hsum : ∀ t, ∃ out, env.summarize t = Except.ok out)
    (k : Nat) (s : MemState) (req : UserRequest) (resp : AgentResponse)
    (h : MemInv k s) : MemInv (k + 1) (addInteraction env s req resp).1 := by
  obtain ⟨hc, hi, hs, hn⟩ := h
  have hlen : s.mem.interactions.length = min k 21 := by
    have hl := congrArg List.length hi
    simpa [List.length_map, idsAfter_length] using hl
  have hfst : (addInteraction env s req resp).1 =
      (if s.mem.interactions.length + 1 > MAX_INTERACTIONS then
        summarizeAndShift env
          ⟨⟨s.mem.interactions ++ [⟨req, resp, env.clock s.tick, s.mem.count + 1⟩],
            s.mem.summaries, s.mem.count + 1⟩, s.tick + 1, s.nSummarizeCalls⟩
      else
        ⟨⟨s.mem.interactions ++ [⟨req, resp, env.clock s.tick, s.mem.count + 1⟩],
          s.mem.summaries, s.mem.count + 1⟩, s.tick + 1, s.nSummarizeCalls⟩) := by
    simp only [addInteraction, List.length_append, List.length_cons, List.length_nil]
  have hmap1 : (s.mem.interactions ++
      [(⟨req, resp, env.clock s.tick, s.mem.count + 1⟩ : Interaction)]).map
      (fun i => i.id) = idsAfter k ++ [k + 1] := by
    rw [List.map_append, hi]
    simp [hc]
  by_cases hcase : 21 ≤ k
  · -- window is full: the push overflows and the shift runs
    have hket : s.mem.interactions.length + 1 > MAX_INTERACTIONS := by
      rw [hlen]; simp [MAX_INTERACTIONS]; omega
    rw [hfst, if_pos hket]
    have hfull : (s.mem.interactions ++
        [(⟨req, resp, env.clock s.tick, s.mem.count + 1⟩ : Interaction)]).map
        (fun i => i.id) = List.range' (k - 20) 22 := by
      rw [hmap1, idsAfter_of_ge k hcase]
      have h21 : k - 20 + 1 * 21 = k + 1 := by omega
      rw [List.range'_concat (k - 20) 21, h21]
    obtain ⟨hsi, hss, hsc, hsn⟩ := summarizeAndShift_spec env hsum
      ⟨⟨s.mem.interactions ++ [(⟨req, resp, env.clock s.tick, s.mem.count + 1⟩ : Interaction)],
        s.mem.summaries, s.mem.count + 1⟩, s.tick + 1, s.nSummarizeCalls⟩ (k - 20) hfull
    refine ⟨?_, ?_, ?_, ?_⟩
    · simpa using hsc.trans (by simpa using hc)
    · have ha1 : k - 20 + 1 = (k + 1) - 20 := by omega
      rw [hsi, ha1, idsAfter_of_ge (k + 1) (by omega)]
    · have ha1 : k - 20 + 1 = k - 19 := by omega
      have ha21 : k - 20 + 21 = k + 1 := by omega
      rw [hss]
      simp only [ha1, ha21, hs]
      have hslen : s.mem.summaries.length = (rangesAfter k).length := by
        have := congrArg List.length hs
        simpa [List.length_map] using this
      rw [hslen]
      exact rangesAfter_step k hcase
    · rw [hsn]
      simp only [hn]
      omega
  · -- window not yet full: no summarization
    have hket : ¬ (s.mem.interactions.length + 1 > MAX_INTERACTIONS) := by
      rw [hlen]; simp [MAX_INTERACTIONS]; omega
    rw [hfst, if_neg hket]
    refine ⟨by simpa using hc, ?_, ?_, ?_⟩
    · simp only []
      rw [hmap1]
      rw [idsAfter_of_le k (by omega), idsAfter_of_le (k + 1) (by omega)]
      have h1k : 1 + 1 * k = k + 1 := by omega
      rw [List.range'_concat, h1k]
    · simp only []
      rw [hs, rangesAfter_of_le k (by omega), rangesAfter_of_le (k + 1) (by omega)]
    · simp only []
      rw [hn]
      omega

/-- The window description holds along any sequence of additions. -/
lemma addAll_inv (env : MemEnv)
    (hsum : ∀ t, ∃ out, env.summarize t = Except.ok out) :
    ∀ (l : List (UserRequest × AgentResponse)) (k : Nat) (s : MemState),
      MemInv k s → MemInv (k + l.length) (addAll env s l)
  | [], k, s, h => by simpa [addAll] using h
  | x :: t, k, s, h => by
    have h1 := addInteraction_inv env hsum k s x.1 x.2 h
    have h2 := addAll_inv env hsum t (k + 1) _ h1
    have hlen : k + (x :: t).length = (k + 1) + t.length := by simp; omega
    rw [hlen]
    simpa [addAll, List.foldl_cons] using h2

lemma memInv_zero : MemInv 0 st0 := by
  refine ⟨rfl, ?_, ?_, rfl⟩
  · simp [st0, emptyMemory, idsAfter]
  · simp [st0, emptyMemory, rangesAfter]

lemma chain'_drop {α : Type} (R : α → α → Prop) :
    ∀ (n : Nat) (l : List α), List.Chain' R l → List.Chain' R (l.drop n)
  | 0, _, h => h
  | n + 1, l, h => by
    rw [← List.tail_drop]
    exact (chain'_drop R n l h).tail

lemma chain'_shiftRanges :
    ∀ (m a : Nat), 20 ≤ a →
      List.Chain' (fun p q : Nat × Nat => q.1 = p.1 + 1 ∧ q.2 = p.2 + 1)
        ((List.range' a m).map (fun j => (j - 20, j)))
  | 0, _, _ => by simp
  | 1, a, _ => by
    rw [List.range'_succ]
    simp
  | m + 2, a, ha => by
    rw [List.range'_succ, List.range'_succ]
    simp only [List.map_cons]
    rw [List.chain'_cons]
    refine ⟨⟨by omega, by omega⟩, ?_⟩
    have hrec := chain'_shiftRanges (m + 1) (a + 1) (by omega)
    rw [List.range'_succ] at hrec
    simpa using hrec

/-- C3: from empty memory, N ≤ 21 additions leave exactly N active
records with ids 1..N, no summary and no summarizer call; the 22nd
addition triggers exactly one summarization, covering ids 2..22, and
leaves 21 active records with ids 2..22. -/
theorem spec_c3_rolling_window (env : MemEnv)
    (hsum : ∀ t, ∃ out, env.summarize t = Except.ok out)
    (inputs : List (UserRequest × AgentResponse)) :
    (inputs.length ≤ 21 →
      (addAll env st0 inputs).mem.interactions.map (fun i => i.id) =
          List.range' 1 inputs.length ∧
        (addAll env st0 inputs).mem.summaries = [] ∧
        (addAll env st0 inputs).mem.count = inputs.length ∧
        (addAll env st0 inputs).nSummarizeCalls = 0) ∧
    (inputs.length = 22 →
      (addAll env st0 inputs).nSummarizeCalls = 1 ∧
        (addAll env st0 inputs).mem.summaries.map
            (fun x => (x.range.startId, x.range.endId)) = [(2, 22)] ∧
        (addAll env st0 inputs).mem.interactions.map (fun i => i.id) = List.range' 2 21 ∧
        (addAll env st0 inputs).mem.count = 22) := by
  obtain ⟨hc, hi, hs, hn⟩ := addAll_inv env hsum inputs 0 st0 memInv_zero
  simp only [Nat.zero_add] at hc hi hs hn
  constructor
  · intro hle
    refine ⟨?_, ?_, hc, ?_⟩
    · rw [hi, idsAfter_of_le _ hle]
    · exact List.map_eq_nil_iff.mp (hs.trans (rangesAfter_of_le _ hle))
    · rw [hn]; omega
  · intro h22
    refine ⟨?_, ?_, ?_, ?_⟩
    · rw [hn, h22]
    · rw [hs, h22]; decide
    · rw [hi, h22]; decide
    · rw [hc, h22]

/-- Witness for C3 on 22 concrete additions with an always-succeeding
summarizer. -/
theorem spec_c3_witness :
    (addAll envMem0 st0 (List.replicate 22 (req0, resp0))).nSummarizeCalls = 1 ∧
    (addAll envMem0 st0 (List.replicate 22 (req0, resp0))).mem.summaries.map
        (fun x => (x.range.startId, x.range.endId)) = [(2, 22)] ∧
    (addAll envMem0 st0 (List.replicate 22 (req0, resp0))).mem.interactions.map
        (fun i => i.id) = List.range' 2 21 ∧
    (addAll envMem0 st0 (List.replicate 22 (req0, resp0))).mem.count = 22 :=
  (spec_c3_rolling_window envMem0 (fun _ => ⟨⟨"S", "R"⟩, rfl⟩)
    (List.replicate 22 (req0, resp0))).2 (by simp)

set_option maxRecDepth 6000 in
/-- C4 counterexample: after 23 additions from empty the stored ranges
are (2,22) and (3,23) — neither contiguous nor non-overlapping, against
the claim's invariant. -/
theorem spec_c4_cex :
    (addAll envMem0 st0 (List.replicate 23 (req0, resp0))).mem.summaries.map
        (fun x => (x.range.startId, x.range.endId)) = [(2, 22), (3, 23)] ∧
    rangesContiguous [(2, 22), (3, 23)] = false ∧
    rangesDisjoint [(2, 22), (3, 23)] = false := by
  refine ⟨by decide, rfl, rfl⟩

/-- C4 amended: with a succeeding summarizer, after any sequence of
additions from empty the summary list holds at most 3 entries (exactly
min(N-21, 3): one summarization per addition beyond the 21st, the
oldest evicted when a fourth is created), ordered oldest-to-newest;
each range covers 21 consecutive ids (end = start + 20) and
consecutive ranges are shifted by exactly one id — overlapping, not
contiguous/disjoint. -/
theorem spec_c4_amended (env : MemEnv)
    (hsum : ∀ t, ∃ out, env.summarize t = Except.ok out)
    (inputs : List (UserRequest × AgentResponse)) :
    (addAll env st0 inputs).mem.summaries.length ≤ 3 ∧
    (addAll env st0 inputs).mem.summaries.length = min (inputs.length - 21) 3 ∧
    (∀ p ∈ (addAll env st0 inputs).mem.summaries.map
        (fun x => (x.range.startId, x.range.endId)), p.2 = p.1 + 20) ∧
    List.Chain' (fun p q : Nat × Nat => q.1 = p.1 + 1 ∧ q.2 = p.2 + 1)
      ((addAll env st0 inputs).mem.summaries.map
        (fun x => (x.range.startId, x.range.endId))) := by
  obtain ⟨hc, hi, hs, hn⟩ := addAll_inv env hsum inputs 0 st0 memInv_zero
  simp only [Nat.zero_add] at hc hi hs hn
  have hlen : (addAll env st0 inputs).mem.summaries.length =
      (rangesAfter inputs.length).length := by
    have := congrArg List.length hs
    simpa [List.length_map] using this
  have hrlen : (rangesAfter inputs.length).length = min (inputs.length - 21) 3 := by
    unfold rangesAfter
    simp only [List.length_drop, List.length_map, List.length_range']
    omega
  refine ⟨?_, hlen.trans hrlen, ?_, ?_⟩
  · rw [hlen, hrlen]; omega
  · intro p hp
    rw [hs] at hp
    unfold rangesAfter at hp
    obtain ⟨j, hj, hpj⟩ := List.mem_map.mp (List.mem_of_mem_drop hp)
    have hjb := List.mem_range'_1.mp hj
    rw [← hpj]
    simpa using by omega
  · rw [hs]
    unfold rangesAfter
    exact chain'_drop _ _ _ (chain'_shiftRanges _ 22 (by omega))

/-- Witness for C4 on 25 concrete additions (4 summarization events). -/
theorem spec_c4_witness :
    (addAll envMem0 st0 (List.replicate 25 (req0, resp0))).mem.summaries.length ≤ 3 ∧
    (addAll envMem0 st0 (List.replicate 25 (req0, resp0))).mem.summaries.length =
      min ((List.replicate 25 (req0, resp0)).length - 21) 3 ∧
    (∀ p ∈ (addAll envMem0 st0 (List.replicate 25 (req0, resp0))).mem.summaries.map
        (fun x => (x.range.startId, x.range.endId)), p.2 = p.1 + 20) ∧
    List.Chain' (fun p q : Nat × Nat => q.1 = p.1 + 1 ∧ q.2 = p.2 + 1)
      ((addAll envMem0 st0 (List.replicate 25 (req0, resp0))).mem.summaries.map
        (fun x => (x.range.startId, x.range.endId))) :=
  spec_c4_amended envMem0 (fun _ => ⟨⟨"S", "R"⟩, rfl⟩) (List.replicate 25 (req0, resp0))

/-- The terminal-command branch never touches the instrumentation, and
its context update keeps memory and notes. -/
lemma termDispatch_ok (env : Env) (opts : OrchOptions) (plan : Option Plan)
    (r : AgentResponse) (ctx : AgentCtx) (den : Nat) (last : Option String) (w : World) :
    ∀ out, termDispatch env opts plan r ctx den last w = Except.ok out →
      (match out with
       | .halt w2 => w2.nAgentCalls = w.nAgentCalls ∧ w2.ctxLog = w.ctxLog
       | .go c2 _ _ w2 =>
         c2.memory = ctx.memory ∧ c2.notes = ctx.notes ∧
           w2.nAgentCalls = w.nAgentCalls ∧ w2.ctxLog = w.ctxLog) := by
  intro out hout
  unfold termDispatch at hout
  cases hh : handleTerminalCommand opts.askApproval env.exec r with
  | error e => rw [hh] at hout; exact absurd hout (by simp)
  | ok tr =>
    rw [hh] at hout
    simp only [] at hout
    by_cases hex : tr.executed = true
    · simp only [hex, if_true] at hout
      cases plan with
      | none =>
        simp only [] at hout
        cases hout
        exact ⟨rfl, rfl, by simp, by simp⟩
      | some p =>
        simp only [] at hout
        cases hout
        exact ⟨rfl, rfl, by simp, by simp⟩
    · simp only [eq_false_of_ne_true hex, if_false, Bool.false_eq_true] at hout
      by_cases hden : (denialUpdate last den r.terminalCommand).2 ≥ MAX_DENIAL_RETRIES
      · rw [if_pos hden] at hout
        cases hout
        exact ⟨by simp, by simp⟩
      · rw [if_neg hden] at hout
        cases hout
        exact ⟨rfl, rfl, by simp, by simp⟩

/-- The non-recursive tail of one loop pass keeps the context's memory
and notes fields and the instrumentation. -/
lemma tailUpdate_facts (env : Env) (opts : OrchOptions) (query : String)
    (plan : Option Plan) (r : AgentResponse) (ctx : AgentCtx) (i : Nat) (w : World) :
    (tailUpdate env opts query plan r ctx i w).1.memory = ctx.memory ∧
    (tailUpdate env opts query plan r ctx i w).1.notes = ctx.notes ∧
    (tailUpdate env opts query plan r ctx i w).2.nAgentCalls = w.nAgentCalls ∧
    (tailUpdate env opts query plan r ctx i w).2.ctxLog = w.ctxLog := by
  unfold tailUpdate
  refine ⟨rfl, rfl, ?_, ?_⟩
  · simp only [addInteractionW_nAgentCalls, foldl_addBlockerW_nAgentCalls]
    by_cases hch : r.choice = "code"
    · rw [if_pos hch]
      cases plan <;> simp
    · rw [if_neg hch]
  · simp only [addInteractionW_ctxLog, foldl_addBlockerW_ctxLog]
    by_cases hch : r.choice = "code"
    · rw [if_pos hch]
      cases plan <;> simp
    · rw [if_neg hch]

/-- The landscape/plan phase does not touch memory, the call counter or
the context log. -/
lemma landscapePhase_facts (env : Env) (query : String) (opts : OrchOptions) (w : World) :
    (landscapePhase env query opts w).2.2.nAgentCalls = w.nAgentCalls ∧
    (landscapePhase env query opts w).2.2.ctxLog = w.ctxLog ∧
    (landscapePhase env query opts w).2.2.memory = w.memory := by
  unfold landscapePhase
  by_cases h1 : (!opts.skipLandscape && shouldUseLandscape query) = true
  · rw [if_pos h1]
    by_cases h2 : ((env.landscapeAgent (landscapePrompt query opts.userContext)).priority =
        "high" || (env.landscapeAgent (landscapePrompt query opts.userContext)).priority =
        "critical") = true
    · rw [if_pos h2]
      simp only [foldl_addBlockerW_nAgentCalls, foldl_addBlockerW_ctxLog,
        foldl_addBlockerW_memory]
      simp
    · rw [if_neg h2]
      exact ⟨rfl, rfl, rfl⟩
  · rw [if_neg h1]
    exact ⟨rfl, rfl, rfl⟩

/-- The dispatched outcome of one pass, whatever the branch, keeps the
instrumentation and the context's memory and notes fields. -/
lemma dispatched_ok (env : Env) (opts : OrchOptions) (plan : Option Plan)
    (r : AgentResponse) (ctx : AgentCtx) (den : Nat) (last : Option String) (w : World) :
    ∀ out, (if r.choice = "terminalCommand" then termDispatch env opts plan r ctx den last w
            else Except.ok (.go ctx den last w)) = Except.ok out →
      (match out with
       | .halt w2 => w2.nAgentCalls = w.nAgentCalls ∧ w2.ctxLog = w.ctxLog
       | .go c2 _ _ w2 =>
         c2.memory = ctx.memory ∧ c2.notes = ctx.notes ∧
           w2.nAgentCalls = w.nAgentCalls ∧ w2.ctxLog = w.ctxLog) := by
  intro out hout
  by_cases hch : r.choice = "terminalCommand"
  · rw [if_pos hch] at hout
    exact termDispatch_ok env opts plan r ctx den last w out hout
  · rw [if_neg hch] at hout
    cases hout
    exact ⟨rfl, rfl, rfl, rfl⟩

/-- The loop makes at most `max (MAX_CONTINUE_ITERATIONS - iter) 1`
base-agent calls (one call always happens: do-while semantics). -/
lemma orchLoop_calls (env : Env) (opts : OrchOptions) (query : String) (plan : Option Plan) :
    ∀ (fuel : Nat) (ctx : AgentCtx) (iter den : Nat) (last : Option String)
      (resp : List AgentResponse) (w : World),
      (orchLoop env opts query plan fuel ctx iter den last resp w).2.nAgentCalls ≤
        w.nAgentCalls + max (MAX_CONTINUE_ITERATIONS - iter) 1 := by
  intro fuel
  induction fuel with
  | zero =>
    intro ctx iter den last resp w
    have hM : 1 ≤ max (MAX_CONTINUE_ITERATIONS - iter) 1 := Nat.le_max_right _ _
    rw [orchLoop]
    split
    · show w.nAgentCalls + 1 ≤ _
      omega
    · rename_i w2 heq
      have hf := dispatched_ok env opts plan _ ctx den last _ _ heq
      have hw2 : w2.nAgentCalls = w.nAgentCalls + 1 := hf.1
      show w2.nAgentCalls ≤ _
      omega
    · rename_i c2 d2 l2 w2 heq
      have hf := dispatched_ok env opts plan _ ctx den last _ _ heq
      have hw2 : w2.nAgentCalls = w.nAgentCalls + 1 := hf.2.2.1
      have ht := (tailUpdate_facts env opts query plan
        (env.agent query (buildContextString ctx)) c2 (iter + 1) w2).2.2.1
      split
      · show (tailUpdate env opts query plan
            (env.agent query (buildContextString ctx)) c2 (iter + 1) w2).2.nAgentCalls ≤ _
        omega
      · show (tailUpdate env opts query plan
            (env.agent query (buildContextString ctx)) c2 (iter + 1) w2).2.nAgentCalls ≤ _
        omega
  | succ f ih =>
    intro ctx iter den last resp w
    have hM : 1 ≤ max (MAX_CONTINUE_ITERATIONS - iter) 1 := Nat.le_max_right _ _
    rw [orchLoop]
    split
    · show w.nAgentCalls + 1 ≤ _
      omega
    · rename_i w2 heq
      have hf := dispatched_ok env opts plan _ ctx den last _ _ heq
      have hw2 : w2.nAgentCalls = w.nAgentCalls + 1 := hf.1
      show w2.nAgentCalls ≤ _
      omega
    · rename_i c2 d2 l2 w2 heq
      have hf := dispatched_ok env opts plan _ ctx den last _ _ heq
      have hw2 : w2.nAgentCalls = w.nAgentCalls + 1 := hf.2.2.1
      have ht := (tailUpdate_facts env opts query plan
        (env.agent query (buildContextString ctx)) c2 (iter + 1) w2).2.2.1
      split
      · rename_i hcond
        have hrec := ih (tailUpdate env opts query plan
            (env.agent query (buildContextString ctx)) c2 (iter + 1) w2).1 (iter + 1) d2 l2
          (resp ++ [env.agent query (buildContextString ctx)])
          (tailUpdate env opts query plan
            (env.agent query (buildContextString ctx)) c2 (iter + 1) w2).2
        have h5 : MAX_CONTINUE_ITERATIONS = 5 := rfl
        have h1 : max (MAX_CONTINUE_ITERATIONS - (iter + 1)) 1 =
            MAX_CONTINUE_ITERATIONS - (iter + 1) := Nat.max_eq_left (by
          have := hcond.2
          omega)
        have h2 : max (MAX_CONTINUE_ITERATIONS - iter) 1 =
            MAX_CONTINUE_ITERATIONS - iter := Nat.max_eq_left (by
          have := hcond.2
          omega)
        have hlt := hcond.2
        show (orchLoop env opts query plan f (tailUpdate env opts query plan
            (env.agent query (buildContextString ctx)) c2 (iter + 1) w2).1 (iter + 1) d2 l2
          (resp ++ [env.agent query (buildContextString ctx)])
          (tailUpdate env opts query plan
            (env.agent query (buildContextString ctx)) c2 (iter + 1) w2).2).2.nAgentCalls ≤ _
        omega
      · show (tailUpdate env opts query plan
            (env.agent query (buildContextString ctx)) c2 (iter + 1) w2).2.nAgentCalls ≤ _
        omega

/-- Every context logged by the loop keeps the memory and notes fields
the loop was entered with: no mid-loop reload ever happens. -/
lemma orchLoop_ctxLog (env : Env) (opts : OrchOptions) (query : String) (plan : Option Plan)
    (M N : String) :
    ∀ (fuel : Nat) (ctx : AgentCtx) (iter den : Nat) (last : Option String)
      (resp : List AgentResponse) (w : World),
      ctx.memory = M → ctx.notes = N →
      (∀ c ∈ w.ctxLog, c.memory = M ∧ c.notes = N) →
      ∀ c ∈ (orchLoop env opts query plan fuel ctx iter den last resp w).2.ctxLog,
        c.memory = M ∧ c.notes = N := by
  intro fuel
  induction fuel with
  | zero =>
    intro ctx iter den last resp w hm hn hlog
    have hlog1 : ∀ c ∈ w.ctxLog ++ [ctx], c.memory = M ∧ c.notes = N := by
      intro c hc
      rcases List.mem_append.mp hc with h | h
      · exact hlog c h
      · rcases List.mem_singleton.mp h with rfl
        exact ⟨hm, hn⟩
    rw [orchLoop]
    split
    · intro c hc
      exact hlog1 c hc
    · rename_i w2 heq
      have hf := dispatched_ok env opts plan _ ctx den last _ _ heq
      intro c hc
      have hw2 : c ∈ w.ctxLog ++ [ctx] := by
        have h2 : w2.ctxLog = w.ctxLog ++ [ctx] := hf.2
        rwa [h2] at hc
      exact hlog1 c hw2
    · rename_i c2 d2 l2 w2 heq
      have hf := dispatched_ok env opts plan _ ctx den last _ _ heq
      have ht := tailUpdate_facts env opts query plan
        (env.agent query (buildContextString ctx)) c2 (iter + 1) w2
      have hlogp : ∀ c ∈ (tailUpdate env opts query plan
          (env.agent query (buildContextString ctx)) c2 (iter + 1) w2).2.ctxLog,
          c.memory = M ∧ c.notes = N := by
        intro c hc
        rw [ht.2.2.2] at hc
        have h2 : w2.ctxLog = w.ctxLog ++ [ctx] := hf.2.2.2
        rw [h2] at hc
        exact hlog1 c hc
      split
      · intro c hc
        exact hlogp c hc
      · intro c hc
        exact hlogp c hc
  | succ f ih =>
    intro ctx iter den last resp w hm hn hlog
    have hlog1 : ∀ c ∈ w.ctxLog ++ [ctx], c.memory = M ∧ c.notes = N := by
      intro c hc
      rcases List.mem_append.mp hc with h | h
      · exact hlog c h
      · rcases List.mem_singleton.mp h with rfl
        exact ⟨hm, hn⟩
    rw [orchLoop]
    split
    · intro c hc
      exact hlog1 c hc
    · rename_i w2 heq
      have hf := dispatched_ok env opts plan _ ctx den last _ _ heq
      intro c hc
      have hw2 : c ∈ w.ctxLog ++ [ctx] := by
        have h2 : w2.ctxLog = w.ctxLog ++ [ctx] := hf.2
        rwa [h2] at hc
      exact hlog1 c hw2
    · rename_i c2 d2 l2 w2 heq
      have hf := dispatched_ok env opts plan _ ctx den last _ _ heq
      have ht := tailUpdate_facts env opts query plan
        (env.agent query (buildContextString ctx)) c2 (iter + 1) w2
      have hlogp : ∀ c ∈ (tailUpdate env opts query plan
          (env.agent query (buildContextString ctx)) c2 (iter + 1) w2).2.ctxLog,
          c.memory = M ∧ c.notes = N := by
        intro c hc
        rw [ht.2.2.2] at hc
        have h2 : w2.ctxLog = w.ctxLog ++ [ctx] := hf.2.2.2
        rw [h2] at hc
        exact hlog1 c hc
      split
      · have hmem : (tailUpdate env opts query plan
            (env.agent query (buildContextString ctx)) c2 (iter + 1) w2).1.memory = M := by
          rw [ht.1, hf.1, hm]
        have hnot : (tailUpdate env opts query plan
            (env.agent query (buildContextString ctx)) c2 (iter + 1) w2).1.notes = N := by
          rw [ht.2.1, hf.2.1, hn]
        exact ih _ (iter + 1) d2 l2 _ _ hmem hnot hlogp
      · intro c hc
        exact hlogp c hc

/-- C1: one `orchestrate` invocation performs at most
`MAX_CONTINUE_ITERATIONS` (5) turn-level base-agent calls, whatever
the collaborators do — in particular even if every turn response sets
its continuation flag. -/
theorem spec_c1_iteration_cap (env : Env) (query : String) (opts : OrchOptions) (w : World) :
    (orchestrate env query opts w).2.nAgentCalls ≤
      w.nAgentCalls + MAX_CONTINUE_ITERATIONS := by
  have hph := landscapePhase_facts env query opts w
  have hloop := orchLoop_calls env opts query (landscapePhase env query opts w).2.1
    MAX_CONTINUE_ITERATIONS
    { memory := getMemoryContextString w.memory, notes := w.notes,
      userContext := opts.userContext, landscape := (landscapePhase env query opts w).1,
      plan := (landscapePhase env query opts w).2.1, previousOutput := none,
      previousResponse := none, iteration := none } 0 0 none []
    (landscapePhase env query opts w).2.2
  have hmax : max (MAX_CONTINUE_ITERATIONS - 0) 1 = MAX_CONTINUE_ITERATIONS := rfl
  rw [hmax, hph.1] at hloop
  unfold orchestrate
  dsimp only []
  cases hq : orchLoop env opts query (landscapePhase env query opts w).2.1
      MAX_CONTINUE_ITERATIONS
      { memory := getMemoryContextString w.memory, notes := w.notes,
        userContext := opts.userContext, landscape := (landscapePhase env query opts w).1,
        plan := (landscapePhase env query opts w).2.1, previousOutput := none,
        previousResponse := none, iteration := none } 0 0 none []
      (landscapePhase env query opts w).2.2 with
  | mk res w2 =>
    rw [hq] at hloop
    cases res with
    | ok rs =>
      exact hloop
    | error e =>
      show (addBlockerW env w2 ("Error: " ++ e)).nAgentCalls ≤ _
      rw [addBlockerW_nAgentCalls]
      exact hloop

/-- C7 amended: every context payload the iteration loop hands to the
base agent carries the memory context string and notes loaded once
before the loop began (even before any plan-phase notes writes); the
per-iteration state recorded into the stores is never re-read within
the same invocation. -/
theorem spec_c7_amended (env : Env) (query : String) (opts : OrchOptions) (w : World)
    (h : w.ctxLog = []) :
    ∀ c ∈ (orchestrate env query opts w).2.ctxLog,
      c.memory = getMemoryContextString w.memory ∧ c.notes = w.notes := by
  have hph := landscapePhase_facts env query opts w
  have hlog0 : ∀ c ∈ (landscapePhase env query opts w).2.2.ctxLog,
      c.memory = getMemoryContextString w.memory ∧ c.notes = w.notes := by
    rw [hph.2.1, h]
    simp
  have hloop := orchLoop_ctxLog env opts query (landscapePhase env query opts w).2.1
    (getMemoryContextString w.memory) w.notes MAX_CONTINUE_ITERATIONS
    { memory := getMemoryContextString w.memory, notes := w.notes,
      userContext := opts.userContext, landscape := (landscapePhase env query opts w).1,
      plan := (landscapePhase env query opts w).2.1, previousOutput := none,
      previousResponse := none, iteration := none } 0 0 none []
    (landscapePhase env query opts w).2.2 rfl rfl hlog0
  unfold orchestrate
  dsimp only []
  cases hq : orchLoop env opts query (landscapePhase env query opts w).2.1
      MAX_CONTINUE_ITERATIONS
      { memory := getMemoryContextString w.memory, notes := w.notes,
        userContext := opts.userContext, landscape := (landscapePhase env query opts w).1,
        plan := (landscapePhase env query opts w).2.1, previousOutput := none,
        previousResponse := none, iteration := none } 0 0 none []
      (landscapePhase env query opts w).2.2 with
  | mk res w2 =>
    rw [hq] at hloop
    cases res with
    | ok rs =>
      exact hloop
    | error e =>
      intro c hc
      have hc2 : c ∈ w2.ctxLog := by
        have hlog : (addBlockerW env w2 ("Error: " ++ e)).ctxLog = w2.ctxLog :=
          addBlockerW_ctxLog env w2 ("Error: " ++ e)
        exact hlog ▸ hc
      exact hloop c hc2

set_option maxRecDepth 6000 in
/-- C7 counterexample: with an always-continue plain-response agent the
run performs 5 iterations, and every context payload (including those
of iterations 2..5) carries the empty pre-loop memory rendering — it
does not reflect the memory recorded at the end of the previous
iteration, whose rendering is non-empty. -/
theorem spec_c7_cex :
    ((orchestrate envSimple "q" optsNoCb world0).2.ctxLog.map (fun c => c.memory)) =
      ["", "", "", "", ""] ∧
    (getMemoryContextString memAfter1 = "") = False := by
  exact ⟨by decide, eq_false (by decide)⟩

set_option maxRecDepth 6000 in
/-- Witness for C7 (amended): the first context logged by a concrete
five-iteration run carries the pre-loop memory rendering and notes. -/
theorem spec_c7_witness :
    (initialCtx "q" optsNoCb world0).memory = getMemoryContextString world0.memory ∧
    (initialCtx "q" optsNoCb world0).notes = world0.notes :=
  spec_c7_amended envSimple "q" optsNoCb world0 rfl (initialCtx "q" optsNoCb world0)
    (by decide)

/-- C2: the denial counter resets to 1 on a differing declined command
and increments on the identical one; and whenever a turn's command is
declined while the previous decline was the identical command text
(counter at 1), the loop records the declined-command blocker and the
terminal too-many-denials blocker and returns right after this
iteration, regardless of the response's continuation flag. -/
theorem spec_c2_denial_breaker :
    (∀ (last : Option String) (den : Nat) (cmd : String), last ≠ some cmd →
      denialUpdate last den cmd = (some cmd, 1)) ∧
    (∀ (den : Nat) (cmd : String),
      denialUpdate (some cmd) den cmd = (some cmd, den + 1)) ∧
    (∀ (env : Env) (opts : OrchOptions) (query : String) (plan : Option Plan)
      (fuel : Nat) (ctx : AgentCtx) (iter : Nat) (resp : List AgentResponse)
      (w : World) (tr : TermResult),
      (env.agent query (buildContextString ctx)).choice = "terminalCommand" →
      handleTerminalCommand opts.askApproval env.exec
          (env.agent query (buildContextString ctx)) = Except.ok tr →
      tr.executed = false →
      orchLoop env opts query plan fuel ctx iter 1
          (some (env.agent query (buildContextString ctx)).terminalCommand) resp w =
        (Except.ok (resp ++ [env.agent query (buildContextString ctx)], iter + 1),
         addBlockerW env
           (addBlockerW env
             { w with nAgentCalls := w.nAgentCalls + 1, ctxLog := w.ctxLog ++ [ctx] }
             ("Command declined: " ++
               (env.agent query (buildContextString ctx)).terminalCommand))
           "Too many command denials - stopping iteration")) := by
  refine ⟨?_, ?_, ?_⟩
  · intro last den cmd hne
    unfold denialUpdate
    rw [if_neg hne]
  · intro den cmd
    unfold denialUpdate
    rw [if_pos rfl]
  · intro env opts query plan fuel ctx iter resp w tr hch hht hex
    rw [orchLoop]
    dsimp only []
    rw [hch]
    rw [if_pos rfl]
    unfold termDispatch
    rw [hht]
    dsimp only []
    rw [hex]
    simp only [Bool.false_eq_true, if_false]
    unfold denialUpdate
    rw [if_pos rfl]
    simp only [MAX_DENIAL_RETRIES, ge_iff_le]
    rw [if_pos (by omega)]

/-- Witness for C2: a second consecutive decline of the same command
stops the loop after that iteration with the terminal blocker, even
though the response requests continuation. -/
theorem spec_c2_witness :
    orchLoop envDeny optsDeny "do it" none 5 (initialCtx "do it" optsDeny world0) 1 1
        (some "rm -rf tmp") [mkResp "terminalCommand" "rm -rf tmp" true true] world0 =
      (Except.ok ([mkResp "terminalCommand" "rm -rf tmp" true true,
          mkResp "terminalCommand" "rm -rf tmp" true true], 2),
       addBlockerW envDeny
         (addBlockerW envDeny
           { world0 with
               nAgentCalls := world0.nAgentCalls + 1,
               ctxLog := world0.ctxLog ++ [initialCtx "do it" optsDeny world0] }
           ("Command declined: " ++ "rm -rf tmp"))
         "Too many command denials - stopping iteration") :=
  spec_c2_denial_breaker.2.2 envDeny optsDeny "do it" none 5
    (initialCtx "do it" optsDeny world0) 1 [mkResp "terminalCommand" "rm -rf tmp" true true]
    world0 declinedTermResult rfl rfl rfl

/-- C5 amended: with the approval callback absent and the
approval-required flag set, the command is not executed, but no
declined outcome is recorded either: `handleTerminalCommand` raises a
type error (for any command executor), and `orchestrate` records an
error blocker and rethrows — unlike a present callback returning
false, which yields the declined outcome. -/
theorem spec_c5_amended :
    (∀ (exec : String → ExecResult) (r : AgentResponse), r.requiresApproval = true →
      handleTerminalCommand none exec r = Except.error "askApproval is not a function") ∧
    (∀ (env : Env) (query : String) (opts : OrchOptions) (w : World),
      opts.askApproval = none → opts.skipLandscape = true →
      (env.agent query (buildContextString (initialCtx query opts w))).choice =
        "terminalCommand" →
      (env.agent query (buildContextString (initialCtx query opts w))).requiresApproval =
        true →
      orchestrate env query opts w =
        (Except.error "askApproval is not a function",
         addBlockerW env
           { w with
               nAgentCalls := w.nAgentCalls + 1,
               ctxLog := w.ctxLog ++ [initialCtx query opts w] }
           ("Error: " ++ "askApproval is not a function"))) := by
  constructor
  · intro exec r h
    unfold handleTerminalCommand
    rw [h]
    simp
  · intro env query opts w hma hskip hch happ
    have hph : landscapePhase env query opts w = (none, none, w) := by
      unfold landscapePhase
      rw [hskip]
      simp
    unfold initialCtx at hch happ
    unfold orchestrate
    rw [hph]
    dsimp only []
    rw [orchLoop]
    dsimp only []
    rw [hch, if_pos rfl]
    unfold termDispatch handleTerminalCommand
    rw [happ, hma]
    simp only [if_true]
    unfold initialCtx
    rfl

/-- Witness for C5 (amended) at a concrete approval-required command
with no callback supplied. -/
theorem spec_c5_witness :
    handleTerminalCommand none exec0 (mkResp "terminalCommand" "rm -rf tmp" true true) =
      Except.error "askApproval is not a function" ∧
    orchestrate envDeny "do it" optsNoCb world0 =
      (Except.error "askApproval is not a function",
       addBlockerW envDeny
         { world0 with
             nAgentCalls := world0.nAgentCalls + 1,
             ctxLog := world0.ctxLog ++ [initialCtx "do it" optsNoCb world0] }
         ("Error: " ++ "askApproval is not a function")) :=
  ⟨spec_c5_amended.1 exec0 (mkResp "terminalCommand" "rm -rf tmp" true true) rfl,
   spec_c5_amended.2 envDeny "do it" optsNoCb world0 rfl rfl rfl rfl⟩
